import Mathlib

/-!
Verification of the provisioning engine in `src/send_config.py`
(gve_devnet_ssm_on-prem_provisioning).

Shallow embedding. The script drives an external SSH transport (scrapli) and
the Python standard library:
* `ipaddress.ip_address` is abstracted as a boolean predicate `validIP` on
  strings (true exactly when the call succeeds);
* the transport's observable behaviour towards one device visit is an oracle
  value `DeviceBehavior`: the outcome of `conn.open()` and of each
  `send_configs` / `send_command` call.  Stage calls either return a result
  object (`failed` flag plus `result` text) or raise an exception; `conn.open()`
  either succeeds, raises one of the two exception classes the script catches
  (`ScrapliAuthenticationFailed`, `ScrapliPrivilegeError`), or raises some
  other exception.
Presentation calls (`rich` printing, progress bars, prompts) have no effect on
the engine state and are not modelled.
-/

set_option autoImplicit false

namespace SendConfig

/-! ## Python string trimming (`line.strip()`) -/

/-- Whitespace characters removed by Python `str.strip()` with no argument
(ASCII subset: space, tab, linefeed, vertical tab, formfeed, carriage
return). -/
def pyIsSpace (c : Char) : Bool :=
  c == ' ' || c == '\t' || c == '\n' || c == '\x0b' || c == '\x0c' || c == '\r'

/-- Python `s.strip()`: drop leading and trailing whitespace. -/
def pyStrip (s : String) : String :=
  String.mk (((s.data.dropWhile pyIsSpace).reverse.dropWhile pyIsSpace).reverse)

/-! ## Address validator: `loadDeviceList` (lines 72-95)

The CSV file is modelled as the list of its lines; `validIP` abstracts
`ipaddress.ip_address` (true iff parsing succeeds).  The source appends to
`valid_ips` / `invalid_ips` while walking the file; the recursion below builds
the same two lists front-to-back. -/

def loadDeviceList (validIP : String → Bool) : List String → List String × List String
  | [] => ([], [])
  | line :: rest =>
    let l := pyStrip line
    let p := loadDeviceList validIP rest
    if l == "" then p
    else if validIP l then (l :: p.1, p.2)
    else (p.1, l :: p.2)

/-- The non-blank lines of the input after trimming, in encounter order. -/
def processedLines (lines : List String) : List String :=
  (lines.map pyStrip).filter (fun l => !(l == ""))

/-! ## Session gateway: `connectSSH` (lines 98-129) -/

/-- Outcome of `IOSXEDriver(**device); conn.open()` for one visit. -/
inductive OpenResult where
  | opened
  | authFailed (msg : String)
  | privFailed (msg : String)
  | raised (msg : String)
deriving DecidableEq

/-- Outcome of one `send_configs` / `send_command` call: the returned result
object (`failed` flag, `result` text) or a raised exception. -/
inductive StageResult where
  | ok (output : String)
  | failed (output : String)
  | raised (msg : String)
deriving DecidableEq

/-- The transport's observable behaviour towards one device visit. -/
structure DeviceBehavior where
  openRes : OpenResult
  removeRes : StageResult
  configRes : StageResult
  registerRes : StageResult
deriving DecidableEq

/-- Lines 122-129: `conn.open()` under `try`.  Both caught exception classes
(`ScrapliAuthenticationFailed`, `ScrapliPrivilegeError`) become
`(None, str(e))` — only the exception's rendered message is surfaced, its
class is not preserved in any program value; any other exception propagates
(`Except.error`); success returns the live connection and no error. -/
def connectSSH (r : OpenResult) : Except String (Option Unit × Option String) :=
  match r with
  | .opened => .ok (some (), none)
  | .authFailed m => .ok (none, some m)
  | .privFailed m => .ok (none, some m)
  | .raised m => .error m

/-- Per-connection scrapli keyword arguments built in lines 102-120. -/
structure DeviceParams where
  host : String
  auth_username : String
  auth_password : String
  auth_strict_key : Bool
  auth_secondary : Option String
  transport_open_cmd : List String
deriving DecidableEq

/-- Python truthiness of the optional enable password (`if enable_password:`):
`None` and the empty string are falsy. -/
def pyTruthy : Option String → Bool
  | none => false
  | some s => !(s == "")

/-- Lines 102-120: the `device` dict.  `auth_secondary` is only set when the
enable password is truthy; the transport options add one key-exchange
algorithm and one cipher; `auth_strict_key` is `False`. -/
def connectSSHParams (device user password : String)
    (enable_password : Option String) : DeviceParams :=
  { host := device
    auth_username := user
    auth_password := password
    auth_strict_key := false
    auth_secondary := if pyTruthy enable_password then enable_password else none
    transport_open_cmd :=
      ["-o", "KexAlgorithms=+diffie-hellman-group-exchange-sha1",
       "-o", "Ciphers=+aes256-cbc"] }

/-! ## Configuration constants and command sets (lines 29-66) -/

def DEFAULT_PROFILE_NAME : String := "CiscoTAC-1"

def REMOVE_SSM_CONFIG (defaultProfileName : String) : List String :=
  ["call-home", "no profile " ++ defaultProfileName]

def SSM_CONFIG (profileName ssmUrl : String) : List String :=
  ["call-home",
   "no http secure server-identity-check",
   "profile " ++ profileName,
   "reporting smart-licensing-data",
   "destination transport-method http",
   "destination address http " ++ ssmUrl,
   "destination preferred-msg-format xml",
   "active",
   "exit"]

def LICENSE_REGISTER_COMMAND (token : String) : String :=
  "license smart register idtoken " ++ token

/-! ## Configuration sequencer and orchestrator: `updateConfiguration`
(lines 132-201) -/

/-- The three configuration stages of the fixed sequence. -/
inductive Stage where
  | removeProfile
  | applyConfig
  | registerLicense
deriving DecidableEq

/-- Reason recorded in `status["errors"][ip]`: the string returned by
`connectSSH` (the caught exception's rendered text, `str(e)`) or a failing
stage's `result.result`; the constructor marks only the recording site in the
loop (line 151 versus lines 165/178/190), not any extra information the
program would keep. -/
inductive Reason where
  | connectFail (msg : String)
  | stageFail (output : String)
deriving DecidableEq

/-- How one pass of the loop body ends: success appended, a failure reason
recorded, or an uncaught exception leaving the loop (and the function). -/
inductive DevOutcome where
  | ok
  | recorded (r : Reason)
  | exn (msg : String)
deriving DecidableEq

def isExnRes : DevOutcome → Bool
  | .exn _ => true
  | _ => false

def isRecordedRes : DevOutcome → Bool
  | .recorded _ => true
  | _ => false

def isOkStage : StageResult → Bool
  | .ok _ => true
  | _ => false

/-- Trace of the loop body (lines 142-200) for one device: whether
`connectSSH` handed back a live session, which stages were submitted, how
many times `c.close()` ran, and how the pass ended. -/
structure DeviceRun where
  sessionOpened : Bool
  attempted : List Stage
  closes : Nat
  result : DevOutcome
deriving DecidableEq

/-- Step 4 (lines 185-195): `send_command(LICENSE_REGISTER_COMMAND)`.  On
`result.failed` the error is recorded, the session closed, the loop
continues; on success the ip is recorded as success and the session closed;
a raised exception leaves the function with no close. -/
def runRegister (att : List Stage) (r : StageResult) : DeviceRun :=
  match r with
  | .raised m => ⟨true, att ++ [Stage.registerLicense], 0, .exn m⟩
  | .failed out => ⟨true, att ++ [Stage.registerLicense], 1, .recorded (.stageFail out)⟩
  | .ok _ => ⟨true, att ++ [Stage.registerLicense], 1, .ok⟩

/-- Steps 3 and 4 (lines 172-199): `send_configs(SSM_CONFIG)` then license
registration. -/
def runApply (att : List Stage) (beh : DeviceBehavior) : DeviceRun :=
  match beh.configRes with
  | .raised m => ⟨true, att ++ [Stage.applyConfig], 0, .exn m⟩
  | .failed out => ⟨true, att ++ [Stage.applyConfig], 1, .recorded (.stageFail out)⟩
  | .ok _ => runRegister (att ++ [Stage.applyConfig]) beh.registerRes

/-- The loop body of `updateConfiguration` (lines 142-200) for one device.
`removeProfile` is the `REMOVE_DEFAULT_PROFILE` toggle (line 30; set by
configuration per section 6 of the design).  Note there is no
`try`/`finally` around the stage calls: a raised exception ends with zero
`c.close()` calls. -/
def processDevice (removeProfile : Bool) (beh : DeviceBehavior) : DeviceRun :=
  match connectSSH beh.openRes with
  | .error m => ⟨false, [], 0, .exn m⟩
  | .ok (_, some e) => ⟨false, [], 0, .recorded (.connectFail e)⟩
  | .ok (_, none) =>
    if removeProfile then
      match beh.removeRes with
      | .raised m => ⟨true, [Stage.removeProfile], 0, .exn m⟩
      | .failed out => ⟨true, [Stage.removeProfile], 1, .recorded (.stageFail out)⟩
      | .ok _ => runApply [Stage.removeProfile] beh
    else
      runApply [] beh

/-- The `status` dict (lines 136-138): `errors` is a Python dict keyed by ip
(modelled as an insertion-ordered association list), `success` a list. -/
structure Status where
  errors : List (String × Reason)
  success : List String
deriving DecidableEq

/-- Python dict assignment `status["errors"][ip] = r`: overwrite in place if
the key exists, else append at the end. -/
def dictInsert (k : String) (v : Reason) : List (String × Reason) → List (String × Reason)
  | [] => [(k, v)]
  | kv :: rest => if kv.1 == k then (k, v) :: rest else kv :: dictInsert k v rest

/-- The loop of `updateConfiguration` from a given `status`.  Each element of
`devs` is one address together with the transport's behaviour for that visit.
An uncaught exception in the body propagates out of the function
(`Except.error`), losing the status built so far. -/
def updateConfigFrom (removeProfile : Bool) :
    Status → List (String × DeviceBehavior) → Except String Status
  | st, [] => .ok st
  | st, (ip, beh) :: rest =>
    match (processDevice removeProfile beh).result with
    | .exn m => .error m
    | .ok => updateConfigFrom removeProfile ⟨st.errors, st.success ++ [ip]⟩ rest
    | .recorded r => updateConfigFrom removeProfile ⟨dictInsert ip r st.errors, st.success⟩ rest

/-- `updateConfiguration` (lines 132-201), starting from the empty status. -/
def updateConfiguration (removeProfile : Bool)
    (devs : List (String × DeviceBehavior)) : Except String Status :=
  updateConfigFrom removeProfile ⟨[], []⟩ devs

/-- The run pipeline (lines 232-249 without the prompts): load the device
list, push configuration to the valid addresses, and keep the invalid ones
for the report.  `behOf` gives the transport behaviour for each address. -/
def runPipeline (validIP : String → Bool) (removeProfile : Bool)
    (behOf : String → DeviceBehavior) (lines : List String) :
    Except String (Status × List String) :=
  match updateConfiguration removeProfile
      (((loadDeviceList validIP lines).1).map (fun ip => (ip, behOf ip))) with
  | .error m => .error m
  | .ok st => .ok (st, (loadDeviceList validIP lines).2)

/-! ## Helper lemmas about the validator -/

theorem processedLines_nil : processedLines [] = [] := rfl

theorem processedLines_cons (line : String) (rest : List String) :
    processedLines (line :: rest) =
      if pyStrip line == "" then processedLines rest
      else pyStrip line :: processedLines rest := by
  simp only [processedLines, List.map_cons, List.filter_cons]
  cases h : pyStrip line == "" <;> simp [h]

theorem loadDeviceList_eq (validIP : String → Bool) (lines : List String) :
    loadDeviceList validIP lines =
      ((processedLines lines).filter validIP,
       (processedLines lines).filter (fun l => !(validIP l))) := by
  induction lines with
  | nil => rfl
  | cons line rest ih =>
    rw [processedLines_cons]
    cases hb : pyStrip line == "" <;>
      cases hv : validIP (pyStrip line) <;>
        simp [loadDeviceList, ih, hb, hv, List.filter_cons]

theorem length_filter_split {α : Type} (p : α → Bool) (l : List α) :
    (l.filter p).length + (l.filter (fun a => !(p a))).length = l.length := by
  induction l with
  | nil => rfl
  | cons a t ih => cases h : p a <;> simp [List.filter_cons, h] <;> omega

/-! ## Helper lemmas about the error dict -/

theorem dictInsert_of_fresh (k : String) (v : Reason) (l : List (String × Reason))
    (h : k ∉ l.map Prod.fst) : dictInsert k v l = l ++ [(k, v)] := by
  induction l with
  | nil => rfl
  | cons kv rest ih =>
    simp only [List.map_cons, List.mem_cons, not_or] at h
    have hk : (kv.1 == k) = false := by
      simp only [beq_eq_false_iff_ne]
      exact fun he => h.1 he.symm
    simp [dictInsert, hk, ih h.2]

theorem mem_keys_dictInsert (a k : String) (v : Reason) (l : List (String × Reason)) :
    a ∈ (dictInsert k v l).map Prod.fst ↔ a = k ∨ a ∈ l.map Prod.fst := by
  induction l with
  | nil => simp [dictInsert]
  | cons kv rest ih =>
    by_cases h : kv.1 = k
    · subst h
      simp [dictInsert]
    · have hk : (kv.1 == k) = false := by simp [h]
      simp [dictInsert, hk, ih]
      tauto

/-! ## Per-visit outcome bookkeeping for the orchestrator loop -/

/-- Addresses of the visits whose loop pass ends in the success branch. -/
def succsOf (rp : Bool) : List (String × DeviceBehavior) → List String
  | [] => []
  | p :: rest =>
    match (processDevice rp p.2).result with
    | .ok => p.1 :: succsOf rp rest
    | _ => succsOf rp rest

/-- Address/reason pairs of the visits whose loop pass records a failure. -/
def errsOf (rp : Bool) : List (String × DeviceBehavior) → List (String × Reason)
  | [] => []
  | p :: rest =>
    match (processDevice rp p.2).result with
    | .recorded r => (p.1, r) :: errsOf rp rest
    | _ => errsOf rp rest

theorem mem_succsOf (rp : Bool) (devs : List (String × DeviceBehavior)) (a : String)
    (h : a ∈ succsOf rp devs) : a ∈ devs.map Prod.fst := by
  induction devs with
  | nil => cases h
  | cons q rest ih =>
    simp only [List.map_cons, List.mem_cons]
    rcases hres : (processDevice rp q.2).result with _ | r | m <;>
      simp only [succsOf, hres] at h
    · rcases List.mem_cons.mp h with h1 | h2
      · exact Or.inl h1
      · exact Or.inr (ih h2)
    · exact Or.inr (ih h)
    · exact Or.inr (ih h)

theorem mem_errsOf_keys (rp : Bool) (devs : List (String × DeviceBehavior)) (a : String)
    (h : a ∈ (errsOf rp devs).map Prod.fst) : a ∈ devs.map Prod.fst := by
  induction devs with
  | nil => cases h
  | cons q rest ih =>
    simp only [List.map_cons, List.mem_cons]
    rcases hres : (processDevice rp q.2).result with _ | r | m <;>
      simp only [errsOf, hres] at h
    · exact Or.inr (ih h)
    · simp only [List.map_cons, List.mem_cons] at h
      rcases h with h1 | h2
      · exact Or.inl h1
      · exact Or.inr (ih h2)
    · exact Or.inr (ih h)

theorem succs_errs_length (rp : Bool) (devs : List (String × DeviceBehavior))
    (hne : ∀ p ∈ devs, isExnRes (processDevice rp p.2).result = false) :
    (succsOf rp devs).length + (errsOf rp devs).length = devs.length := by
  induction devs with
  | nil => rfl
  | cons q rest ih =>
    have hq := hne q (List.mem_cons_self q rest)
    have hr : ∀ p ∈ rest, isExnRes (processDevice rp p.2).result = false :=
      fun p hp => hne p (List.mem_cons_of_mem q hp)
    rcases hres : (processDevice rp q.2).result with _ | r | m <;>
      simp only [succsOf, errsOf, hres, List.length_cons]
    · have := ih hr; omega
    · have := ih hr; omega
    · rw [hres] at hq
      simp [isExnRes] at hq

theorem succsOf_or_errsOf (rp : Bool) (devs : List (String × DeviceBehavior)) :
    ∀ p ∈ devs, isExnRes (processDevice rp p.2).result = false →
      p.1 ∈ succsOf rp devs ∨ p.1 ∈ (errsOf rp devs).map Prod.fst := by
  induction devs with
  | nil => intro p hp; cases hp
  | cons q rest ih =>
    intro p hp hne
    rcases List.mem_cons.mp hp with hph | hpt
    · subst hph
      rcases hres : (processDevice rp p.2).result with _ | r | m
      · exact Or.inl (by simp [succsOf, hres])
      · exact Or.inr (by simp [errsOf, hres])
      · rw [hres] at hne; simp [isExnRes] at hne
    · rcases ih p hpt hne with h1 | h2
      · rcases hres : (processDevice rp q.2).result with _ | r | m <;>
          simp [succsOf, hres, h1]
      · rcases hres : (processDevice rp q.2).result with _ | r | m <;>
          simp [errsOf, hres, h2]

theorem succs_errs_disjoint (rp : Bool) (devs : List (String × DeviceBehavior))
    (hnd : (devs.map Prod.fst).Nodup) :
    ∀ a, a ∈ succsOf rp devs → a ∉ (errsOf rp devs).map Prod.fst := by
  induction devs with
  | nil => intro a ha; cases ha
  | cons q rest ih =>
    rw [List.map_cons, List.nodup_cons] at hnd
    intro a ha hb
    rcases hres : (processDevice rp q.2).result with _ | r | m <;>
      simp only [succsOf, errsOf, hres] at ha hb
    · rcases List.mem_cons.mp ha with h1 | h2
      · exact hnd.1 (h1 ▸ mem_errsOf_keys rp rest a hb)
      · exact ih hnd.2 a h2 hb
    · simp only [List.map_cons, List.mem_cons] at hb
      rcases hb with h1 | h2
      · exact hnd.1 (h1 ▸ mem_succsOf rp rest a ha)
      · exact ih hnd.2 a ha h2
    · exact ih hnd.2 a ha hb

/-- Characterization of the orchestrator loop when no visit raises and the
addresses are pairwise distinct: the final status is the start status
extended by the per-visit successes and recorded failures. -/
theorem updateConfigFrom_ok (rp : Bool) (devs : List (String × DeviceBehavior)) :
    ∀ st : Status,
    (∀ p ∈ devs, isExnRes (processDevice rp p.2).result = false) →
    (∀ k ∈ devs.map Prod.fst, k ∉ st.errors.map Prod.fst) →
    (devs.map Prod.fst).Nodup →
    updateConfigFrom rp st devs =
      .ok ⟨st.errors ++ errsOf rp devs, st.success ++ succsOf rp devs⟩ := by
  induction devs with
  | nil =>
    intro st _ _ _
    simp [updateConfigFrom, errsOf, succsOf]
  | cons q rest ih =>
    intro st hne hkeys hnd
    obtain ⟨ip, beh⟩ := q
    rw [List.map_cons, List.nodup_cons] at hnd
    have hq := hne (ip, beh) (List.mem_cons_self _ _)
    have hr : ∀ p ∈ rest, isExnRes (processDevice rp p.2).result = false :=
      fun p hp => hne p (List.mem_cons_of_mem _ hp)
    rcases hres : (processDevice rp beh).result with _ | r | m
    · simp only [updateConfigFrom, hres]
      rw [ih ⟨st.errors, st.success ++ [ip]⟩ hr
        (fun k hk => hkeys k (List.mem_cons_of_mem _ hk)) hnd.2]
      simp [succsOf, errsOf, hres]
    · have hfresh : ip ∉ st.errors.map Prod.fst :=
        hkeys ip (by simp)
      simp only [updateConfigFrom, hres]
      rw [ih ⟨dictInsert ip r st.errors, st.success⟩ hr ?keys hnd.2]
      · rw [dictInsert_of_fresh ip r st.errors hfresh]
        simp [succsOf, errsOf, hres]
      case keys =>
        intro k hk hmem
        rw [mem_keys_dictInsert] at hmem
        rcases hmem with h1 | h2
        · exact hnd.1 (h1 ▸ hk)
        · exact hkeys k (List.mem_cons_of_mem _ hk) h2
    · rw [hres] at hq
      simp [isExnRes] at hq

/-- An `Except.ok` return of the loop means no visit raised an uncaught
exception. -/
theorem updateConfigFrom_ok_no_exn (rp : Bool) (devs : List (String × DeviceBehavior)) :
    ∀ st st2 : Status, updateConfigFrom rp st devs = .ok st2 →
    ∀ p ∈ devs, isExnRes (processDevice rp p.2).result = false := by
  induction devs with
  | nil => intro st st2 _ p hp; cases hp
  | cons q rest ih =>
    intro st st2 h p hp
    obtain ⟨ip, beh⟩ := q
    rcases hres : (processDevice rp beh).result with _ | r | m <;>
      simp only [updateConfigFrom, hres] at h
    · rcases List.mem_cons.mp hp with h1 | h2
      · subst h1; simp [isExnRes, hres]
      · exact ih _ _ h p h2
    · rcases List.mem_cons.mp hp with h1 | h2
      · subst h1; simp [isExnRes, hres]
      · exact ih _ _ h p h2
    · cases h

/-! ## Claims about the address validator -/

/-- C6: for every sequence of raw input lines, the validator produces two
disjoint sequences — lines that parse as IP addresses and lines that do not —
each preserving encounter order (both are sublists of the trimmed non-blank
input), with blank lines skipped entirely (they are absent from
`processedLines`, the lines being classified) and duplicate entries kept
without deduplication (per-line multiplicities are preserved). -/
theorem claim_C6 (validIP : String → Bool) (lines : List String) :
    loadDeviceList validIP lines =
      ((processedLines lines).filter validIP,
       (processedLines lines).filter (fun l => !(validIP l)))
    ∧ (∀ s, s ∈ (loadDeviceList validIP lines).1 → s ∉ (loadDeviceList validIP lines).2)
    ∧ (loadDeviceList validIP lines).1.Sublist (processedLines lines)
    ∧ (loadDeviceList validIP lines).2.Sublist (processedLines lines)
    ∧ (loadDeviceList validIP lines).1.length + (loadDeviceList validIP lines).2.length
        = (processedLines lines).length
    ∧ ∀ s, validIP s = true →
        (loadDeviceList validIP lines).1.count s = (processedLines lines).count s := by
  simp only [loadDeviceList_eq]
  refine ⟨trivial, ?_, ?_, ?_, ?_, ?_⟩
  · intro s hs hmem
    rw [List.mem_filter] at hs hmem
    rw [hs.2] at hmem
    simp at hmem
  · exact List.filter_sublist _
  · exact List.filter_sublist _
  · exact length_filter_split validIP (processedLines lines)
  · intro s hv
    exact List.count_filter hv

/-- Witness for C6 at a concrete input: a line classified valid never shows up
among the invalid entries. -/
theorem claim_C6_witness :
    "10.0.0.1" ∉ (loadDeviceList (fun s => s == "10.0.0.1")
      [" 10.0.0.1", "bad", ""]).2 :=
  (claim_C6 (fun s => s == "10.0.0.1") [" 10.0.0.1", "bad", ""]).2.1
    "10.0.0.1" (by decide)

/-- C9: every input line is whitespace-trimmed before classification: a line
of only whitespace is skipped exactly like an empty line, and a valid address
surrounded by whitespace is accepted and stored in trimmed form. -/
theorem claim_C9 (validIP : String → Bool) (line : String) (lines : List String) :
    (pyStrip line = "" →
      loadDeviceList validIP (line :: lines) = loadDeviceList validIP lines
      ∧ loadDeviceList validIP (line :: lines) = loadDeviceList validIP ("" :: lines))
    ∧ (pyStrip line ≠ "" → validIP (pyStrip line) = true →
      (loadDeviceList validIP (line :: lines)).1
          = pyStrip line :: (loadDeviceList validIP lines).1
      ∧ (loadDeviceList validIP (line :: lines)).2 = (loadDeviceList validIP lines).2) := by
  have h0 : pyStrip "" = "" := rfl
  constructor
  · intro h
    constructor
    · simp [loadDeviceList, h]
    · simp [loadDeviceList, h, h0]
  · intro h hv
    have hb : (pyStrip line == "") = false := by simp [h]
    constructor <;> simp [loadDeviceList, hb, hv]

/-- Witness for C9 at a concrete input: a whitespace-only line is dropped
exactly like the absent line, and a padded address is stored trimmed. -/
theorem claim_C9_witness :
    loadDeviceList (fun s => s == "1.2.3.4") [" \t "]
        = loadDeviceList (fun s => s == "1.2.3.4") []
    ∧ (loadDeviceList (fun s => s == "1.2.3.4") ["  1.2.3.4 "]).1
        = "1.2.3.4" :: (loadDeviceList (fun s => s == "1.2.3.4") []).1 :=
  ⟨((claim_C9 (fun s => s == "1.2.3.4") " \t " []).1 (by decide)).1,
   ((claim_C9 (fun s => s == "1.2.3.4") "  1.2.3.4 " []).2
      (by decide) (by decide)).1⟩

/-! ## Claims about the session gateway parameters -/

/-- Boolean test that `small` is an initial segment of `s` (character-wise). -/
def listIsInit : List Char → List Char → Bool
  | [], _ => true
  | _ :: _, [] => false
  | a :: as, b :: bs => a == b && listIsInit as bs

/-- C8: every session open attempt configures the transport with exactly one
additional (`+`-prefixed) key-exchange algorithm and exactly one additional
symmetric cipher beyond the defaults, and disables strict host-key
verification; the settings are built afresh per call of `connectSSH` from its
arguments alone (no global default is mutated), as the quantification over
all credential arguments shows. -/
theorem claim_C8 (d u p : String) (e : Option String) :
    (connectSSHParams d u p e).auth_strict_key = false
    ∧ ((connectSSHParams d u p e).transport_open_cmd.filter
        (fun s => listIsInit (String.data "KexAlgorithms=+") s.data)).length = 1
    ∧ ((connectSSHParams d u p e).transport_open_cmd.filter
        (fun s => listIsInit (String.data "Ciphers=+") s.data)).length = 1
    ∧ (connectSSHParams d u p e).transport_open_cmd =
        ["-o", "KexAlgorithms=+diffie-hellman-group-exchange-sha1",
         "-o", "Ciphers=+aes256-cbc"] := by
  have hcmd : (connectSSHParams d u p e).transport_open_cmd =
      ["-o", "KexAlgorithms=+diffie-hellman-group-exchange-sha1",
       "-o", "Ciphers=+aes256-cbc"] := rfl
  refine ⟨rfl, ?_, ?_, hcmd⟩ <;> rw [hcmd] <;> decide

/-- C10: an enable secret equal to the empty string is treated the same as an
omitted secret: the built session parameters are identical and no secondary
authentication parameter is configured, so the driver is never asked to
escalate privilege. -/
theorem claim_C10 (d u p : String) :
    connectSSHParams d u p (some "") = connectSSHParams d u p none
    ∧ (connectSSHParams d u p (some "")).auth_secondary = none
    ∧ (connectSSHParams d u p none).auth_secondary = none :=
  ⟨rfl, rfl, rfl⟩

/-! ## Helper lemmas about the per-device stage runner -/

theorem runApply_remove_mem (att : List Stage) (beh : DeviceBehavior) :
    Stage.removeProfile ∈ (runApply att beh).attempted ↔
      Stage.removeProfile ∈ att := by
  rcases hc : beh.configRes with o1 | o1 | m1
  · rcases hg : beh.registerRes with o2 | o2 | m2 <;>
      simp [runApply, runRegister, hc, hg]
  · simp [runApply, hc]
  · simp [runApply, hc]

theorem runApply_eq_of (att : List Stage) (b1 b2 : DeviceBehavior)
    (h1 : b1.configRes = b2.configRes) (h2 : b1.registerRes = b2.registerRes) :
    runApply att b1 = runApply att b2 := by
  simp only [runApply, h1, h2]

theorem runApply_att (att : List Stage) (beh : DeviceBehavior) :
    (runApply att beh).attempted = att ++ (runApply [] beh).attempted
    ∧ (runApply att beh).result = (runApply [] beh).result
    ∧ (runApply att beh).closes = (runApply [] beh).closes := by
  rcases hc : beh.configRes with o1 | o1 | m1
  · rcases hg : beh.registerRes with o2 | o2 | m2 <;>
      simp [runApply, runRegister, hc, hg]
  · simp [runApply, hc]
  · simp [runApply, hc]

theorem runApply_closes (att : List Stage) (beh : DeviceBehavior) :
    ((∀ m, (runApply att beh).result ≠ .exn m) → (runApply att beh).closes = 1)
    ∧ (∀ m, (runApply att beh).result = .exn m → (runApply att beh).closes = 0) := by
  rcases hc : beh.configRes with o1 | o1 | m1
  · rcases hg : beh.registerRes with o2 | o2 | m2 <;>
      simp [runApply, runRegister, hc, hg]
  · simp [runApply, hc]
  · simp [runApply, hc]

/-! ## Claims about the per-device sequencer and session lifecycle -/

/-- C4 (confirmed): for every device and stage, if a stage reports failure
then no later stage is attempted, the run ends right there with the failing
stage's output as the recorded reason and one session close, and the
orchestrator continues with the next address.  The five cases cover each
stage position under both values of the removal toggle; the hypotheses
require the earlier stages to have succeeded, which is exactly the state in
which the stage in question runs. -/
theorem claim_C4 (rp : Bool) (beh : DeviceBehavior) (out : String)
    (ho : beh.openRes = .opened) :
    (rp = true → beh.removeRes = .failed out →
        processDevice rp beh =
          ⟨true, [Stage.removeProfile], 1, .recorded (.stageFail out)⟩)
    ∧ (rp = true → isOkStage beh.removeRes = true → beh.configRes = .failed out →
        processDevice rp beh =
          ⟨true, [Stage.removeProfile, Stage.applyConfig], 1,
            .recorded (.stageFail out)⟩)
    ∧ (rp = false → beh.configRes = .failed out →
        processDevice rp beh =
          ⟨true, [Stage.applyConfig], 1, .recorded (.stageFail out)⟩)
    ∧ (rp = true → isOkStage beh.removeRes = true → isOkStage beh.configRes = true →
        beh.registerRes = .failed out →
        processDevice rp beh =
          ⟨true, [Stage.removeProfile, Stage.applyConfig, Stage.registerLicense], 1,
            .recorded (.stageFail out)⟩)
    ∧ (rp = false → isOkStage beh.configRes = true → beh.registerRes = .failed out →
        processDevice rp beh =
          ⟨true, [Stage.applyConfig, Stage.registerLicense], 1,
            .recorded (.stageFail out)⟩)
    ∧ (∀ ip (st : Status) rest r, (processDevice rp beh).result = .recorded r →
        updateConfigFrom rp st ((ip, beh) :: rest)
          = updateConfigFrom rp ⟨dictInsert ip r st.errors, st.success⟩ rest) := by
  refine ⟨?_, ?_, ?_, ?_, ?_, ?_⟩
  · intro hrp hrr
    subst hrp
    simp [processDevice, ho, connectSSH, hrr]
  · intro hrp hok hcr
    subst hrp
    rcases hrr : beh.removeRes with o2 | o2 | m2
    · simp [processDevice, ho, connectSSH, hrr, runApply, hcr]
    · rw [hrr] at hok; simp [isOkStage] at hok
    · rw [hrr] at hok; simp [isOkStage] at hok
  · intro hrp hcr
    subst hrp
    simp [processDevice, ho, connectSSH, runApply, hcr]
  · intro hrp hok1 hok2 hgr
    subst hrp
    rcases hrr : beh.removeRes with o2 | o2 | m2
    · rcases hcr : beh.configRes with o3 | o3 | m3
      · simp [processDevice, ho, connectSSH, hrr, runApply, hcr, runRegister, hgr]
      · rw [hcr] at hok2; simp [isOkStage] at hok2
      · rw [hcr] at hok2; simp [isOkStage] at hok2
    · rw [hrr] at hok1; simp [isOkStage] at hok1
    · rw [hrr] at hok1; simp [isOkStage] at hok1
  · intro hrp hok hgr
    subst hrp
    rcases hcr : beh.configRes with o3 | o3 | m3
    · simp [processDevice, ho, connectSSH, runApply, hcr, runRegister, hgr]
    · rw [hcr] at hok; simp [isOkStage] at hok
    · rw [hcr] at hok; simp [isOkStage] at hok
  · intro ip st rest r hres
    simp only [updateConfigFrom, hres]

/-- Witness for C4: a concrete device failing at the removal stage is halted
there with that stage's output recorded and the session closed once. -/
theorem claim_C4_witness :
    processDevice true ⟨.opened, .failed "err", .ok "", .ok ""⟩ =
      ⟨true, [Stage.removeProfile], 1, .recorded (.stageFail "err")⟩ :=
  (claim_C4 true ⟨.opened, .failed "err", .ok "", .ok ""⟩ "err" rfl).1 rfl rfl

/-- C5 as stated is false in its "surfaced distinctly" part: both except
branches of `connectSSH` return `None, str(e)` (lines 126 and 128), so the
caller receives only the exception's rendered message and the failure kind
is not preserved in any program value.  When an authentication failure and a
privilege failure happen to render the same text, the values surfaced to the
caller — and the recorded reasons — are identical, as the concrete pair of
devices below shows. -/
theorem claim_C5_counterexample :
    ¬ (∀ (m m2 : String),
        (processDevice true ⟨.authFailed m, .ok "", .ok "", .ok ""⟩).result
          ≠ (processDevice true ⟨.privFailed m2, .ok "", .ok "", .ok ""⟩).result) := by
  intro h
  exact h "denied" "denied" rfl

/-- C5 (amended): a device whose session open fails — by authentication or by
privilege escalation — has no stage attempted (and nothing closed), the
caught exception's rendered message is recorded as the failure reason, and
the orchestrator moves to the next address with no retry of the device.  The
two failure kinds are distinguishable only through those message texts:
both except branches return `str(e)`, so coinciding texts surface
identically (see the counterexample). -/
theorem claim_C5_amended (rp : Bool) (beh : DeviceBehavior) (m : String) :
    (beh.openRes = .authFailed m →
      processDevice rp beh = ⟨false, [], 0, .recorded (.connectFail m)⟩)
    ∧ (beh.openRes = .privFailed m →
      processDevice rp beh = ⟨false, [], 0, .recorded (.connectFail m)⟩)
    ∧ (∀ ip (st : Status) rest r, (processDevice rp beh).result = .recorded r →
        updateConfigFrom rp st ((ip, beh) :: rest)
          = updateConfigFrom rp ⟨dictInsert ip r st.errors, st.success⟩ rest) := by
  refine ⟨?_, ?_, ?_⟩
  · intro h; simp [processDevice, h, connectSSH]
  · intro h; simp [processDevice, h, connectSSH]
  · intro ip st rest r hres
    simp only [updateConfigFrom, hres]

/-- Witness for C5 (amended): a concrete authentication failure records the
exception's message with no stage attempted. -/
theorem claim_C5_amended_witness :
    processDevice true ⟨.authFailed "denied", .ok "", .ok "", .ok ""⟩ =
      ⟨false, [], 0, .recorded (.connectFail "denied")⟩ :=
  (claim_C5_amended true ⟨.authFailed "denied", .ok "", .ok "", .ok ""⟩ "denied").1 rfl

/-- C7 (confirmed): with an open session, the removal stage is attempted iff
the toggle is enabled; with the toggle disabled the run is entirely
independent of the removal stage's would-be outcome (it contributes neither
success nor failure), and when the removal stage succeeds under the enabled
toggle the remaining stages behave exactly as with the toggle disabled. -/
theorem claim_C7 (rp : Bool) (beh : DeviceBehavior) (o : String)
    (ho : beh.openRes = .opened) :
    (Stage.removeProfile ∈ (processDevice rp beh).attempted ↔ rp = true)
    ∧ (∀ r2, processDevice false beh
        = processDevice false ⟨beh.openRes, r2, beh.configRes, beh.registerRes⟩)
    ∧ (beh.removeRes = .ok o →
        (processDevice true beh).attempted
            = Stage.removeProfile :: (processDevice false beh).attempted
        ∧ (processDevice true beh).result = (processDevice false beh).result
        ∧ (processDevice true beh).closes = (processDevice false beh).closes) := by
  refine ⟨?_, ?_, ?_⟩
  · cases rp
    · simp only [processDevice, ho, connectSSH, if_false, Bool.false_eq_true]
      simp [runApply_remove_mem]
    · simp only [processDevice, ho, connectSSH, if_true]
      rcases hrr : beh.removeRes with o2 | o2 | m2 <;> simp [runApply_remove_mem]
  · intro r2
    simp only [processDevice, ho, connectSSH, if_false, Bool.false_eq_true]
    exact runApply_eq_of [] beh ⟨beh.openRes, r2, beh.configRes, beh.registerRes⟩ rfl rfl
  · intro hrr
    simp only [processDevice, ho, connectSSH, if_true, hrr, Bool.false_eq_true, if_false]
    have h := runApply_att [Stage.removeProfile] beh
    exact ⟨h.1, h.2.1, h.2.2⟩

/-- Witness for C7: with the toggle enabled and an open session the removal
stage is attempted. -/
theorem claim_C7_witness :
    Stage.removeProfile ∈
      (processDevice true ⟨.opened, .ok "", .ok "", .ok ""⟩).attempted :=
  (claim_C7 true ⟨.opened, .ok "", .ok "", .ok ""⟩ "" rfl).1.mpr rfl

/-- C1 as stated is false: on the exit path where the transport raises an
unexpected exception during a stage, the session opened for the device is
never closed (the script has no `try`/`finally` around the stage calls); the
concrete device below opens, then raises during the apply-config stage, and
ends with zero `c.close()` calls. -/
theorem claim_C1_counterexample :
    ¬ (∀ (rp : Bool) (beh : DeviceBehavior),
        (processDevice rp beh).sessionOpened = true →
        (processDevice rp beh).closes = 1) := by
  intro h
  exact absurd (h true ⟨.opened, .ok "", .raised "boom", .ok ""⟩ rfl) (by decide)

/-- C1 (amended): for every device whose session was successfully opened, the
session is closed exactly once before the orchestrator moves to the next
address on every completed exit path — success or failure of any stage; on
the remaining exit path, an unexpected transport exception during a stage,
the session is not closed at all (and the exception propagates, aborting the
run). -/
theorem claim_C1_amended (rp : Bool) (beh : DeviceBehavior)
    (h : (processDevice rp beh).sessionOpened = true) :
    ((∀ m, (processDevice rp beh).result ≠ .exn m) →
        (processDevice rp beh).closes = 1)
    ∧ (∀ m, (processDevice rp beh).result = .exn m →
        (processDevice rp beh).closes = 0) := by
  rcases hob : beh.openRes with _ | m0 | m0 | m0
  · cases rp
    · simp only [processDevice, hob, connectSSH, if_false, Bool.false_eq_true]
      exact runApply_closes [] beh
    · rcases hrr : beh.removeRes with o2 | o2 | m2 <;>
        simp only [processDevice, hob, connectSSH, if_true, hrr]
      · exact runApply_closes [Stage.removeProfile] beh
      · constructor
        · intro _; trivial
        · intro m hm; cases hm
      · constructor
        · intro h2; exact absurd rfl (h2 m2)
        · intro m hm; trivial
  · rw [processDevice, hob] at h; cases h
  · rw [processDevice, hob] at h; cases h
  · rw [processDevice, hob] at h; cases h

/-- Witness for C1 (amended): a fully successful concrete device closes its
session exactly once. -/
theorem claim_C1_amended_witness :
    (processDevice true ⟨.opened, .ok "", .ok "", .ok ""⟩).closes = 1 :=
  (claim_C1_amended true ⟨.opened, .ok "", .ok "", .ok ""⟩ rfl).1
    (by intro m hm; exact DevOutcome.noConfusion hm)

/-- When no visit raises an uncaught exception the loop always completes with
a status, every already-present error key survives, and every visit whose pass
records a failure ends up as a key of the error map. -/
theorem updateConfigFrom_no_exn_ok (rp : Bool) (devs : List (String × DeviceBehavior)) :
    ∀ st : Status,
    (∀ p ∈ devs, isExnRes (processDevice rp p.2).result = false) →
    ∃ st2 : Status, updateConfigFrom rp st devs = .ok st2
      ∧ (∀ k, k ∈ st.errors.map Prod.fst → k ∈ st2.errors.map Prod.fst)
      ∧ (∀ p ∈ devs, isRecordedRes (processDevice rp p.2).result = true →
          p.1 ∈ st2.errors.map Prod.fst) := by
  induction devs with
  | nil =>
    intro st _
    exact ⟨st, rfl, fun k hk => hk, fun p hp => absurd hp (List.not_mem_nil p)⟩
  | cons q rest ih =>
    intro st hne
    obtain ⟨ip, beh⟩ := q
    have hq := hne (ip, beh) (List.mem_cons_self _ _)
    have hr : ∀ p ∈ rest, isExnRes (processDevice rp p.2).result = false :=
      fun p hp => hne p (List.mem_cons_of_mem _ hp)
    rcases hres : (processDevice rp beh).result with _ | r | m
    · obtain ⟨st2, h1, h2, h3⟩ := ih ⟨st.errors, st.success ++ [ip]⟩ hr
      refine ⟨st2, ?_, h2, ?_⟩
      · simp only [updateConfigFrom, hres]; exact h1
      · intro p hp hrec
        rcases List.mem_cons.mp hp with h4 | h4
        · subst h4
          rw [hres] at hrec
          simp [isRecordedRes] at hrec
        · exact h3 p h4 hrec
    · obtain ⟨st2, h1, h2, h3⟩ := ih ⟨dictInsert ip r st.errors, st.success⟩ hr
      refine ⟨st2, ?_, ?_, ?_⟩
      · simp only [updateConfigFrom, hres]; exact h1
      · intro k hk
        exact h2 k (by rw [mem_keys_dictInsert]; exact Or.inr hk)
      · intro p hp hrec
        rcases List.mem_cons.mp hp with h4 | h4
        · subst h4
          exact h2 ip (by rw [mem_keys_dictInsert]; exact Or.inl rfl)
        · exact h3 p h4 hrec
    · rw [hres] at hq
      simp [isExnRes] at hq

/-- C3 as stated is false: an unexpected transport exception during a stage
is a per-device error (the transport's fatal error for that device) yet it
is not caught at the orchestrator boundary — it propagates to the caller of
`updateConfiguration`, even though it is not the startup fatal error.  The
concrete run below has one device that opens and then raises during the
apply-config stage, and the orchestrator returns no status at all. -/
theorem claim_C3_counterexample :
    ¬ (∀ (rp : Bool) (devs : List (String × DeviceBehavior)),
        ∃ st : Status, updateConfiguration rp devs = .ok st) := by
  intro h
  rcases h true [("1.1.1.1", ⟨.opened, .ok "", .raised "boom", .ok ""⟩)] with ⟨st, hst⟩
  rw [show updateConfiguration true
      [("1.1.1.1", ⟨.opened, .ok "", .raised "boom", .ok ""⟩)]
      = Except.error "boom" from rfl] at hst
  exact Except.noConfusion hst

/-- C3 (amended): every per-device error that the script's handlers can see —
an authentication or privilege failure raised at session open, or a stage
reporting failure through its result object — is caught at the orchestrator
boundary and converted into a report entry, never propagating past that
device: whenever no visit raises an unexpected transport exception the
orchestrator returns a status in which every recorded failure appears under
its device's address.  An unexpected transport exception, however, does
propagate to the caller (see the counterexample), in addition to the startup
fatal error the spec names. -/
theorem claim_C3_amended (rp : Bool) (devs : List (String × DeviceBehavior))
    (hne : ∀ p ∈ devs, isExnRes (processDevice rp p.2).result = false) :
    ∃ st : Status, updateConfiguration rp devs = .ok st
      ∧ ∀ p ∈ devs, isRecordedRes (processDevice rp p.2).result = true →
          p.1 ∈ st.errors.map Prod.fst := by
  obtain ⟨st2, h1, _, h3⟩ := updateConfigFrom_no_exn_ok rp devs ⟨[], []⟩ hne
  exact ⟨st2, h1, h3⟩

/-- Witness for C3 (amended): a run over one device whose open fails with an
authentication error completes and files that device under the error map. -/
theorem claim_C3_amended_witness :
    ∃ st : Status,
      updateConfiguration true
          [("1.1.1.1", ⟨.authFailed "denied", .ok "", .ok "", .ok ""⟩)] = .ok st
      ∧ ∀ p ∈ [("1.1.1.1",
            (⟨.authFailed "denied", .ok "", .ok "", .ok ""⟩ : DeviceBehavior))],
          isRecordedRes (processDevice true p.2).result = true →
          p.1 ∈ st.errors.map Prod.fst :=
  claim_C3_amended true
    [("1.1.1.1", ⟨.authFailed "denied", .ok "", .ok "", .ok ""⟩)] (by decide)

/-- C2 as stated is false: the error bucket is a dict keyed by address, so a
duplicated input address that fails twice produces a single error entry and
the three bucket sizes no longer sum to the number of non-blank input lines.
The concrete run below feeds the same address twice; both visits fail
authentication, the error map holds one key, and 0 + 1 + 0 ≠ 2. -/
theorem claim_C2_counterexample :
    ¬ (∀ (validIP : String → Bool) (rp : Bool) (behOf : String → DeviceBehavior)
        (lines : List String) (st : Status) (invalid : List String),
        runPipeline validIP rp behOf lines = .ok (st, invalid) →
        st.success.length + st.errors.length + invalid.length
          = (processedLines lines).length) := by
  intro h
  have hc := h (fun s => s == "1.1.1.1") true
      (fun _ => ⟨.authFailed "denied", .ok "", .ok "", .ok ""⟩)
      ["1.1.1.1", "1.1.1.1"]
      ⟨[("1.1.1.1", .connectFail "denied")], []⟩ [] (by rfl)
  exact absurd hc (by decide)

/-- C2 (amended): provided the non-blank trimmed input lines are pairwise
distinct and the run completes (no visit raises an unexpected transport
exception), every input address ends in exactly one of the three report
buckets — success list, error map, invalid list — and the success, failure
and invalid counts sum to the number of non-blank input lines. -/
theorem claim_C2_amended (validIP : String → Bool) (rp : Bool)
    (behOf : String → DeviceBehavior) (lines : List String)
    (st : Status) (invalid : List String)
    (hnd : (processedLines lines).Nodup)
    (hrun : runPipeline validIP rp behOf lines = .ok (st, invalid)) :
    st.success.length + st.errors.length + invalid.length
        = (processedLines lines).length
    ∧ ∀ l ∈ processedLines lines,
        (l ∈ st.success ∧ l ∉ st.errors.map Prod.fst ∧ l ∉ invalid)
        ∨ (l ∉ st.success ∧ l ∈ st.errors.map Prod.fst ∧ l ∉ invalid)
        ∨ (l ∉ st.success ∧ l ∉ st.errors.map Prod.fst ∧ l ∈ invalid) := by
  rw [runPipeline] at hrun
  rcases hu : updateConfiguration rp
      (((loadDeviceList validIP lines).1).map (fun ip => (ip, behOf ip)))
    with m | st0
  · rw [hu] at hrun
    exact Except.noConfusion hrun
  rw [hu] at hrun
  have hpair := Except.ok.inj hrun
  rw [Prod.mk.injEq] at hpair
  obtain ⟨h1, h2⟩ := hpair
  subst h1
  subst h2
  rw [updateConfiguration] at hu
  have hload := loadDeviceList_eq validIP lines
  have hkeys : ((((loadDeviceList validIP lines).1).map
      (fun ip => (ip, behOf ip))).map Prod.fst) = (loadDeviceList validIP lines).1 := by
    rw [List.map_map]
    show List.map id _ = _
    exact List.map_id _
  have hnodupkeys : (((((loadDeviceList validIP lines).1).map
      (fun ip => (ip, behOf ip))).map Prod.fst)).Nodup := by
    rw [hkeys, hload]
    exact hnd.filter validIP
  have hnoexn := updateConfigFrom_ok_no_exn rp _ _ _ hu
  have hchar := updateConfigFrom_ok rp
      (((loadDeviceList validIP lines).1).map (fun ip => (ip, behOf ip)))
      ⟨[], []⟩ hnoexn (by intro k _ hmem; simp at hmem) hnodupkeys
  rw [hchar] at hu
  have hst0 := Except.ok.inj hu
  rw [← hst0]
  simp only [List.nil_append]
  set devs := (((loadDeviceList validIP lines).1).map (fun ip => (ip, behOf ip))) with hdevs
  constructor
  · have hlen := succs_errs_length rp devs hnoexn
    have hdevlen : devs.length = ((processedLines lines).filter validIP).length := by
      rw [hdevs]
      simp only [List.length_map]
      rw [hload]
    have hinvlen : (loadDeviceList validIP lines).2.length
        = ((processedLines lines).filter (fun l => !(validIP l))).length := by
      rw [hload]
    rw [hinvlen]
    have hsplit := length_filter_split validIP (processedLines lines)
    omega
  · intro l hl
    have hvalideq : (loadDeviceList validIP lines).1
        = (processedLines lines).filter validIP := by rw [hload]
    have hinveq : (loadDeviceList validIP lines).2
        = (processedLines lines).filter (fun l => !(validIP l)) := by rw [hload]
    cases hv : validIP l
    · right; right
      have hlinv : l ∈ (loadDeviceList validIP lines).2 := by
        rw [hinveq, List.mem_filter]
        exact ⟨hl, by rw [hv]; rfl⟩
      have hnotkey : l ∉ devs.map Prod.fst := by
        rw [hkeys, hvalideq, List.mem_filter]
        intro hmem
        rw [hv] at hmem
        exact Bool.noConfusion hmem.2
      refine ⟨?_, ?_, hlinv⟩
      · intro hs
        exact hnotkey (mem_succsOf rp devs l hs)
      · intro he
        exact hnotkey (mem_errsOf_keys rp devs l he)
    · have hlval : l ∈ (loadDeviceList validIP lines).1 := by
        rw [hvalideq, List.mem_filter]
        exact ⟨hl, hv⟩
      have hlinv : l ∉ (loadDeviceList validIP lines).2 := by
        rw [hinveq, List.mem_filter]
        intro hmem
        rw [hv] at hmem
        exact Bool.noConfusion hmem.2
      have hldev : (l, behOf l) ∈ devs := by
        rw [hdevs]
        exact List.mem_map_of_mem (fun ip => (ip, behOf ip)) hlval
      have hcov := succsOf_or_errsOf rp devs (l, behOf l) hldev
        (hnoexn (l, behOf l) hldev)
      have hdisj := succs_errs_disjoint rp devs hnodupkeys l
      rcases hcov with hs | he
      · exact Or.inl ⟨hs, hdisj hs, hlinv⟩
      · right; left
        exact ⟨fun hs => hdisj hs he, he, hlinv⟩

/-- Witness for C2 (amended): a concrete run with one succeeding address and
one invalid line has bucket sizes summing to the two non-blank lines. -/
theorem claim_C2_amended_witness :
    (⟨[], ["10.0.0.1"]⟩ : Status).success.length
      + (⟨[], ["10.0.0.1"]⟩ : Status).errors.length
      + (["bad"] : List String).length
      = (processedLines ["10.0.0.1", "bad"]).length :=
  (claim_C2_amended (fun s => s == "10.0.0.1") true
    (fun _ => ⟨.opened, .ok "", .ok "", .ok ""⟩) ["10.0.0.1", "bad"]
    ⟨[], ["10.0.0.1"]⟩ ["bad"] (by decide) (by rfl)).1

end SendConfig
